import Mathlib

/-!
Verification development for the GNet connection engine.

The Rust sources under src/ are shallowly embedded: each Rust function that a
claim refers to is translated into an executable Lean definition over lists of
bytes (Nat) and explicit state.  The packet codec module (crate::packet) is not
part of the provided sources; the few pieces of it these functions call
(PACKET_SIZE, the connection id parse, the header constructor for a connection
request) are modelled from the specification and marked as such.  The keyed
hash check is kept abstract: the Rust code receives a caller supplied build
hasher and only ever asks one boolean question of it, so every function below
takes the induced predicate on packet bytes as an argument.

A receive event models the outcome of one non-blocking recv call on the UDP
socket: either a datagram (the bytes the OS wrote into the buffer, paired with
the reported byte count, which is their length) or an IO error.  An exhausted
event list behaves like a would-block report, since a drained socket has
nothing more to deliver right now.
-/

/-- Modelled from the spec: the fixed total size of a GNet packet
(crate::packet::PACKET_SIZE, missing from src/); the spec names 1200 bytes as
the typical maximum datagram length agreed between endpoints. -/
def PACKET_SIZE : Nat := 1200

/-- Modelled from the spec: the fixed size of the packet header
(size_of::<packet::PacketHeader>() in the missing packet module); section 6 of
the spec states a fixed header size of 19 bytes. -/
def header_size : Nat := 19

/-- Modelled from the spec: the trailing keyed hash is 64 bits, hence 8 bytes. -/
def hash_size : Nat := 8

/-- Little-endian value of a list of bytes, least significant byte first. -/
def leNat : List Nat → Nat
  | [] => 0
  | b :: bs => b % 256 + 256 * leNat bs

/-- Modelled from the spec: packet::get_header(..).connection_id of the missing
packet module.  The connection id is the first header field, a 32-bit unsigned
integer, and all wire integers are little-endian, so it is the little-endian
value of the first four bytes of the packet. -/
def get_connection_id (packet : List Nat) : Nat := leNat (packet.take 4)

/-- The admission table of a server endpoint or server socket:
HashMap<ConnectionId, Vec<u8>> modelled extensionally as a partial map from
connection ids to byte buckets. -/
abbrev ConnMap := Nat → Option (List Nat)

/-- Pointwise update of an admission table, the semantics of HashMap::insert
(the previous value for the key, if any, is replaced). -/
def ConnMap.update (m : ConnMap) (k : Nat) (v : List Nat) : ConnMap :=
  fun q => if q = k then some v else m q

/-- Rust Result, err second as in Result<T, E>. -/
inductive Result (α : Type) (ε : Type) where
  | ok (value : α)
  | err (error : ε)
deriving DecidableEq

/-- The std::io::ErrorKind values relevant to this code, plus representatives
of the kinds the code treats uniformly. -/
inductive IoErrorKind where
  | wouldBlock
  | notFound
  | permissionDenied
  | connectionRefused
  | connectionReset
  | addrInUse
  | brokenPipe
  | timedOut
  | interrupted
  | unexpectedEof
  | otherKind
deriving DecidableEq

/-- A std::io::Error: its kind plus an opaque payload standing for the OS
error value and message, so that passing an error through unchanged is
observable. -/
structure IoError where
  kind : IoErrorKind
  os_code : Nat
deriving DecidableEq

/-- TransmitError from src/src/endpoint/transmit.rs. -/
inductive TransmitError where
  | noPendingPackets
  | malformedPacket
  | ioError (e : IoError)
deriving DecidableEq

/-- The From<IoError> conversion for TransmitError
(src/src/endpoint/transmit.rs, lines 59-67): WouldBlock becomes
NoPendingPackets, every other error is wrapped unchanged. -/
def TransmitError.fromIoError (e : IoError) : TransmitError :=
  if e.kind = IoErrorKind.wouldBlock then TransmitError.noPendingPackets
  else TransmitError.ioError e

/-- EndpointError as used by src/src/endpoint/server.rs (the endpoint module
root is not in src/; only the two variants that recv_all produces are
modelled). -/
inductive EndpointError where
  | noPendingPackets
  | ioError (e : IoError)
deriving DecidableEq

/-- SocketError from src/src/connection/socket.rs. -/
inductive SocketError where
  | noPendingPackets
  | ioError (e : IoError)
deriving DecidableEq

/-- The From<IoError> conversion for SocketError
(src/src/connection/socket.rs, lines 65-73). -/
def SocketError.fromIoError (e : IoError) : SocketError :=
  if e.kind = IoErrorKind.wouldBlock then SocketError.noPendingPackets
  else SocketError.ioError e

/-- One non-blocking receive outcome delivered by the UDP substrate: a
datagram (the bytes written into the buffer; the reported size is their
length) or an IO error. -/
inductive RecvEvent where
  | dgram (d : List Nat)
  | ioErr (e : IoError)
deriving DecidableEq

/-- Writing the received bytes d into a fixed-size scratch slice ws: the first
d.length positions are overwritten, the rest keep their previous (stale)
content, and the slice keeps its length. -/
def overwrite (ws d : List Nat) : List Nat :=
  (d ++ ws.drop d.length).take ws.length

/-- The mutable state threaded through the receive drain of
ServerUdpEndpoint::recv_all: the scratch slice at the tail of the caller
buffer plus the admission table. -/
structure DrainState where
  ws : List Nat
  connections : ConnMap

/-- One iteration of the Ok branch of the ServerUdpEndpoint::recv_all loop
(src/src/endpoint/server.rs, lines 61-69): the datagram lands in the work
slice; if the reported size is exactly PACKET_SIZE and the keyed hash
verifies, the packet is appended to the bucket of the connection id parsed
from its header, provided such a bucket exists; otherwise nothing is
retained. -/
def drainStep (vh : List Nat → Bool) (s : DrainState) (d : List Nat) : DrainState :=
  let ws := overwrite s.ws d
  if d.length = PACKET_SIZE ∧ vh ws = true then
    match s.connections (get_connection_id ws) with
    | some b => ⟨ws, s.connections.update (get_connection_id ws) (b ++ ws)⟩
    | none => ⟨ws, s.connections⟩
  else ⟨ws, s.connections⟩

/-- Result of the receive drain loop: either the substrate reported
would-block (loop break) or a hard IO error aborted the call. -/
inductive DrainOut where
  | drained (s : DrainState)
  | ioError (e : IoError) (s : DrainState)

/-- The receive drain loop of ServerUdpEndpoint::recv_all
(src/src/endpoint/server.rs, lines 59-76): datagrams are processed by
drainStep, a WouldBlock error breaks the loop, any other error aborts the
call at once. -/
def drainLoop (vh : List Nat → Bool) : List RecvEvent → DrainState → DrainOut
  | [], s => DrainOut.drained s
  | RecvEvent.dgram d :: rest, s => drainLoop vh rest (drainStep vh s d)
  | RecvEvent.ioErr e :: _, s =>
    if e.kind = IoErrorKind.wouldBlock then DrainOut.drained s
    else DrainOut.ioError e s

/-- Admission table after a drain outcome. -/
def DrainOut.connectionsOf : DrainOut → ConnMap
  | DrainOut.drained s => s.connections
  | DrainOut.ioError _ s => s.connections

/-- The hard IO error of a drain outcome, if any. -/
def DrainOut.errorOf : DrainOut → Option IoError
  | DrainOut.drained _ => none
  | DrainOut.ioError e _ => some e

/-- Work slice after a drain outcome. -/
def DrainOut.wsOf : DrainOut → List Nat
  | DrainOut.drained s => s.ws
  | DrainOut.ioError _ s => s.ws

/-- Observable outcome of one ServerUdpEndpoint::recv_all call: the returned
Result, the caller buffer after the call, and the admission table after the
call. -/
structure RecvOutcome where
  result : Result Nat EndpointError
  buffer : List Nat
  connections : ConnMap

/-- ServerUdpEndpoint::recv_all (src/src/endpoint/server.rs, lines 48-87).
The caller buffer is extended by a PACKET_SIZE zero scratch block used as the
receive slice, the substrate is drained, and then: on a hard IO error the
call returns at once (before the scratch truncation); otherwise the scratch
is truncated away, the bucket of the requested connection id is unwrapped
(none models the panic of unwrap on a missing bucket), and its whole content
is either reported as NoPendingPackets when empty or moved into the caller
buffer, clearing the bucket. -/
def ServerUdpEndpoint.recv_all (vh : List Nat → Bool) (events : List RecvEvent)
    (conns : ConnMap) (buffer : List Nat) (connection_id : Nat) :
    Option RecvOutcome :=
  match drainLoop vh events ⟨List.replicate PACKET_SIZE 0, conns⟩ with
  | DrainOut.ioError e s =>
    some ⟨Result.err (EndpointError.ioError e), buffer ++ s.ws, s.connections⟩
  | DrainOut.drained s =>
    match s.connections connection_id with
    | none => none
    | some b =>
      if b.isEmpty then
        some ⟨Result.err EndpointError.noPendingPackets, buffer, s.connections⟩
      else
        some ⟨Result.ok b.length, buffer ++ b, s.connections.update connection_id []⟩

/-- ServerUdpEndpoint::allow_connection_id (src/src/endpoint/server.rs,
lines 96-99): HashMap::insert of a fresh empty bucket. -/
def ServerUdpEndpoint.allow_connection_id (conns : ConnMap) (connection_id : Nat) : ConnMap :=
  conns.update connection_id []

/-- ServerUdpEndpoint::block_connection_id (src/src/endpoint/server.rs,
lines 101-104): HashMap::remove of the bucket. -/
def ServerUdpEndpoint.block_connection_id (conns : ConnMap) (connection_id : Nat) : ConnMap :=
  fun q => if q = connection_id then none else conns q

/-- Observable outcome of one ClientSocket::recv_all call: the returned
Result, the caller buffer, and the scratch packet buffer left in the socket
state. -/
structure ClientOutcome where
  result : Result Nat SocketError
  buffer : List Nat
  pb : List Nat

/-- The loop of ClientSocket::recv_all (src/src/connection/socket.rs,
lines 86-111), with the received byte count accumulator made explicit.  Each
datagram lands in the scratch packet buffer; a packet of exactly PACKET_SIZE
bytes whose keyed hash verifies is appended to the caller buffer when the
optional filter is absent or matches its connection id, and the count grows
by the reported size; every other datagram is skipped.  WouldBlock ends the
loop with Ok when anything was accepted and NoPendingPackets otherwise; any
other IO error is returned as Io. -/
def clientLoop (vh : List Nat → Bool) (filter : Option Nat) :
    List RecvEvent → List Nat → List Nat → Nat → ClientOutcome
  | [], pb, buffer, received =>
    if received > 0 then ⟨Result.ok received, buffer, pb⟩
    else ⟨Result.err SocketError.noPendingPackets, buffer, pb⟩
  | RecvEvent.dgram d :: rest, pb, buffer, received =>
    let pbNew := overwrite pb d
    if d.length = PACKET_SIZE ∧ vh pbNew = true then
      match filter with
      | some cid =>
        if cid = get_connection_id pbNew then
          clientLoop vh filter rest pbNew (buffer ++ pbNew) (received + d.length)
        else
          clientLoop vh filter rest pbNew buffer received
      | none => clientLoop vh filter rest pbNew (buffer ++ pbNew) (received + d.length)
    else clientLoop vh filter rest pbNew buffer received
  | RecvEvent.ioErr e :: _, pb, buffer, received =>
    if e.kind = IoErrorKind.wouldBlock then
      if received > 0 then ⟨Result.ok received, buffer, pb⟩
      else ⟨Result.err SocketError.noPendingPackets, buffer, pb⟩
    else ⟨Result.err (SocketError.ioError e), buffer, pb⟩

/-- ClientSocket::recv_all (src/src/connection/socket.rs, lines 84-112). -/
def ClientSocket.recv_all (vh : List Nat → Bool) (events : List RecvEvent)
    (pb buffer : List Nat) (filter : Option Nat) : ClientOutcome :=
  clientLoop vh filter events pb buffer 0

/-- Result of the ServerSocket::recv_all drain: drained (would-block break)
or a hard IO error. -/
inductive SsDrainOut where
  | drained (pb : List Nat) (conns : ConnMap)
  | ioError (e : IoError) (pb : List Nat) (conns : ConnMap)

/-- The loop of ServerSocket::recv_all (src/src/connection/socket.rs,
lines 124-138).  A verified full-size packet is appended to the bucket of its
connection id through connections.get_mut(..).unwrap(): the none result of
the whole function models the panic of that unwrap when no such bucket
exists. -/
def ssDrainLoop (vh : List Nat → Bool) :
    List RecvEvent → List Nat → ConnMap → Option SsDrainOut
  | [], pb, conns => some (SsDrainOut.drained pb conns)
  | RecvEvent.dgram d :: rest, pb, conns =>
    let pbNew := overwrite pb d
    if d.length = PACKET_SIZE ∧ vh pbNew = true then
      match conns (get_connection_id pbNew) with
      | none => none
      | some b =>
        ssDrainLoop vh rest pbNew (conns.update (get_connection_id pbNew) (b ++ pbNew))
    else ssDrainLoop vh rest pbNew conns
  | RecvEvent.ioErr e :: _, pb, conns =>
    if e.kind = IoErrorKind.wouldBlock then some (SsDrainOut.drained pb conns)
    else some (SsDrainOut.ioError e pb conns)

/-- Observable outcome of one ServerSocket::recv_all call. -/
structure SsOutcome where
  result : Result Nat SocketError
  buffer : List Nat
  pb : List Nat
  connections : ConnMap

/-- ServerSocket::recv_all (src/src/connection/socket.rs, lines 123-148):
drain the socket, then unwrap the bucket of the requested connection id
(none models a panic of either unwrap) and move its whole content to the
caller buffer, or report NoPendingPackets when it is empty. -/
def ServerSocket.recv_all (vh : List Nat → Bool) (events : List RecvEvent)
    (pb buffer : List Nat) (conns : ConnMap) (connection_id : Nat) :
    Option SsOutcome :=
  match ssDrainLoop vh events pb conns with
  | none => none
  | some (SsDrainOut.ioError e pbNew connsNew) =>
    some ⟨Result.err (SocketError.ioError e), buffer, pbNew, connsNew⟩
  | some (SsDrainOut.drained pbNew connsNew) =>
    match connsNew connection_id with
    | none => none
    | some b =>
      if b.isEmpty then
        some ⟨Result.err SocketError.noPendingPackets, buffer, pbNew, connsNew⟩
      else
        some ⟨Result.ok b.length, buffer ++ b, pbNew, connsNew.update connection_id []⟩

/-- Modelled from the spec: the packet header of the missing packet module,
with the fields of section 3 in order.  The hash is not part of the header;
it trails the payload. -/
structure PacketHeader where
  connection_id : Nat
  packet_index : Nat
  ack_index : Nat
  ack_mask : Nat
  flags : Nat
  data_prelude : Nat
  payload_length : Nat
deriving DecidableEq

/-- Modelled from the spec: the REQUEST_CONNECTION flag bit; the flag listing
of section 3 starts with it, so it is bit zero of the flags byte. -/
def REQUEST_CONNECTION : Nat := 1

/-- Modelled from the spec: PacketHeader::request_connection of the missing
packet module builds the handshake request header of section 4.4, namely
connection_id 0, flags REQUEST_CONNECTION and the handshake nonce as the data
prelude; the index and ack fields of a first packet are zero. -/
def PacketHeader.request_connection (handshake_id : Nat) (payload_length : Nat) :
    PacketHeader :=
  ⟨0, 0, 0, 0, REQUEST_CONNECTION, handshake_id, payload_length⟩

/-- ConnectionStatus from src/src/connection/connection.rs. -/
inductive ConnectionStatus where
  | open
  | lost
  | closed
deriving DecidableEq

/-- The Connection state of src/src/connection/connection.rs, field for
field; Instant is modelled as a Nat timestamp and SocketAddr as a Nat. -/
structure Connection where
  connection_id : Nat
  remote : Nat
  packet_buffer : List Nat
  status : ConnectionStatus
  last_sent_packet_time : Nat
  last_received_packet_time : Nat
  sent_packet_buffer : List (Nat × List Nat)
  received_packet_ack_id : Nat
  received_packet_ack_mask : Nat
deriving DecidableEq

/-- Connection::opened (src/src/connection/connection.rs, lines 77-93): a
connection in the Open state with both timestamps set to the construction
instant, empty buffers and zeroed ack state. -/
def Connection.opened (connection_id remote now : Nat) : Connection :=
  ⟨connection_id, remote, [], ConnectionStatus.open, now, now, [], 0, 0⟩

/-- PendingConnection from src/src/connection/connection.rs, field for
field. -/
structure PendingConnection where
  remote : Nat
  packet_buffer : List Nat
  last_sent_packet_time : Nat
  last_communication_time : Nat
  payload : List Nat
  handshake_id : Nat
deriving DecidableEq

/-- ConnectError as used by Connection::connect: the PayloadTooLarge variant
of section 7 plus the substrate send error propagated by the question mark
operator (the error module itself is not in src/). -/
inductive ConnectError where
  | payloadTooLarge
  | ioError (e : IoError)
deriving DecidableEq

/-- What a successful Connection::connect produced: the datagrams pushed to
the substrate (each one a header plus its payload bytes, keeping the
structured form the missing packet codec would serialize) and the returned
PendingConnection. -/
structure ConnectResult where
  sent : List (PacketHeader × List Nat)
  pending : PendingConnection
deriving DecidableEq

/-- Connection::connect (src/src/connection/connection.rs, lines 98-131).
The randomly drawn 32-bit handshake id, the outcome of the substrate send and
the clock reading taken after the send are passed in as arguments.  The
payload bound check subtracts only size_of::<PacketHeader>() from the maximum
datagram length; on success exactly one request datagram is sent and the
returned PendingConnection keeps the payload, the handshake id and the
post-send instant as both of its times, with its packet buffer cleared. -/
def Connection.connect (max_datagram_length remote : Nat) (payload : List Nat)
    (handshake_id : Nat) (send_result : Result Nat IoError) (now : Nat) :
    Result ConnectResult ConnectError :=
  let max_payload_length := max_datagram_length - header_size
  if payload.length > max_payload_length then
    Result.err ConnectError.payloadTooLarge
  else
    match send_result with
    | Result.err e => Result.err (ConnectError.ioError e)
    | Result.ok _ =>
      Result.ok
        ⟨[(PacketHeader.request_connection handshake_id (payload.length % 65536), payload)],
         ⟨remote, [], now, now, payload, handshake_id⟩⟩

/-- A trace of receive events that contains no hard IO error, so the drain
runs to its would-block break. -/
def cleanTrace (events : List RecvEvent) : Bool :=
  events.all fun ev =>
    match ev with
    | RecvEvent.dgram _ => true
    | RecvEvent.ioErr e => e.kind = IoErrorKind.wouldBlock

/-- A trace made of datagrams only. -/
def allDgrams (events : List RecvEvent) : Bool :=
  events.all fun ev =>
    match ev with
    | RecvEvent.dgram _ => true
    | RecvEvent.ioErr _ => false

/-- The datagrams of a trace that ClientSocket::recv_all accepts for a given
connection id filter: full size, verifying hash, matching id. -/
def matchedPackets (vh : List Nat → Bool) (cid : Nat) :
    List RecvEvent → List (List Nat)
  | [] => []
  | RecvEvent.dgram d :: rest =>
    if d.length = PACKET_SIZE ∧ vh d = true ∧ cid = get_connection_id d then
      d :: matchedPackets vh cid rest
    else matchedPackets vh cid rest
  | RecvEvent.ioErr _ :: rest => matchedPackets vh cid rest

/-- The buffer discipline of ServerUdpEndpoint::recv_all on its two error
returns: NoPendingPackets restores the caller buffer exactly, while a hard IO
error leaves exactly one PACKET_SIZE scratch block appended to it. -/
def BufferRestored (buffer : List Nat) (out : RecvOutcome) : Prop :=
  match out.result with
  | Result.err EndpointError.noPendingPackets => out.buffer = buffer
  | Result.err (EndpointError.ioError _) =>
    ∃ ws, ws.length = PACKET_SIZE ∧ out.buffer = buffer ++ ws
  | Result.ok _ => True

/-- Writing a slice keeps the slice length. -/
theorem overwrite_length (ws d : List Nat) : (overwrite ws d).length = ws.length := by
  simp only [overwrite, List.length_take, List.length_append, List.length_drop]
  omega

/-- A datagram that fills the slice exactly replaces its whole content. -/
theorem overwrite_of_length (ws d : List Nat) (h : d.length = ws.length) :
    overwrite ws d = d := by
  simp only [overwrite, ← h]
  exact List.take_left d (ws.drop d.length)

/-- The work slice after one drain iteration is always the freshly written
slice, whatever the retention decision was. -/
theorem drainStep_ws (vh : List Nat → Bool) (s : DrainState) (d : List Nat) :
    (drainStep vh s d).ws = overwrite s.ws d := by
  simp only [drainStep]
  split
  · split <;> rfl
  · rfl

/-- A datagram of the wrong size, or one whose hash does not verify, leaves
the admission table untouched: the iteration only refreshes the work
slice. -/
theorem drainStep_invalid (vh : List Nat → Bool) (s : DrainState) (d : List Nat)
    (hws : s.ws.length = PACKET_SIZE)
    (hinv : ¬(d.length = PACKET_SIZE ∧ vh d = true)) :
    drainStep vh s d = ⟨overwrite s.ws d, s.connections⟩ := by
  simp only [drainStep]
  rw [if_neg]
  intro hc
  exact hinv ⟨hc.1, by
    have heq : overwrite s.ws d = d := overwrite_of_length s.ws d (hc.1.trans hws.symm)
    rw [← heq]
    exact hc.2⟩

/-- The retention decisions of a drain do not depend on the stale content of
the work slice: two drains from the same admission table and full-size work
slices end with the same admission table and the same error report. -/
theorem drain_congr (vh : List Nat → Bool) (events : List RecvEvent) :
    ∀ (ws₁ ws₂ : List Nat) (c : ConnMap),
    ws₁.length = PACKET_SIZE → ws₂.length = PACKET_SIZE →
    (drainLoop vh events ⟨ws₁, c⟩).connectionsOf
        = (drainLoop vh events ⟨ws₂, c⟩).connectionsOf
    ∧ (drainLoop vh events ⟨ws₁, c⟩).errorOf = (drainLoop vh events ⟨ws₂, c⟩).errorOf := by
  induction events with
  | nil => intro ws₁ ws₂ c h₁ h₂; exact ⟨rfl, rfl⟩
  | cons ev rest ih =>
    intro ws₁ ws₂ c h₁ h₂
    cases ev with
    | ioErr e =>
      simp only [drainLoop]
      split <;> exact ⟨rfl, rfl⟩
    | dgram d =>
      simp only [drainLoop]
      by_cases hd : d.length = PACKET_SIZE
      · have e₁ : overwrite ws₁ d = d := overwrite_of_length ws₁ d (hd.trans h₁.symm)
        have e₂ : overwrite ws₂ d = d := overwrite_of_length ws₂ d (hd.trans h₂.symm)
        have hstep : drainStep vh ⟨ws₁, c⟩ d = drainStep vh ⟨ws₂, c⟩ d := by
          simp only [drainStep, e₁, e₂]
        rw [hstep]
        exact ⟨rfl, rfl⟩
      · rw [drainStep_invalid vh ⟨ws₁, c⟩ d h₁ fun hc => hd hc.1,
            drainStep_invalid vh ⟨ws₂, c⟩ d h₂ fun hc => hd hc.1]
        exact ih (overwrite ws₁ d) (overwrite ws₂ d) c
          (by rw [overwrite_length]; exact h₁)
          (by rw [overwrite_length]; exact h₂)

/-- A trace without hard IO errors drains to the would-block break. -/
theorem drain_clean (vh : List Nat → Bool) :
    ∀ (events : List RecvEvent) (s : DrainState), cleanTrace events = true →
    (drainLoop vh events s).errorOf = none := by
  intro events
  induction events with
  | nil => intro s _; rfl
  | cons ev rest ih =>
    intro s hc
    cases ev with
    | dgram d =>
      simp only [cleanTrace, List.all_cons, Bool.and_eq_true] at hc
      exact ih (drainStep vh s d) (by simp [cleanTrace, hc.2])
    | ioErr e =>
      simp only [cleanTrace, List.all_cons, Bool.and_eq_true, decide_eq_true_eq] at hc
      simp only [drainLoop, if_pos hc.1]
      rfl

/-- The work slice stays full-size through a drain. -/
theorem drain_ws_length (vh : List Nat → Bool) :
    ∀ (events : List RecvEvent) (s : DrainState), s.ws.length = PACKET_SIZE →
    (drainLoop vh events s).wsOf.length = PACKET_SIZE := by
  intro events
  induction events with
  | nil => intro s h; exact h
  | cons ev rest ih =>
    intro s h
    cases ev with
    | dgram d =>
      simp only [drainLoop]
      exact ih (drainStep vh s d) (by rw [drainStep_ws, overwrite_length]; exact h)
    | ioErr e =>
      simp only [drainLoop]
      split <;> exact h

/-- A hard IO error reported by the drain never has the WouldBlock kind. -/
theorem drain_io_kind (vh : List Nat → Bool) :
    ∀ (events : List RecvEvent) (s : DrainState) (e : IoError) (sAfter : DrainState),
    drainLoop vh events s = DrainOut.ioError e sAfter →
    e.kind ≠ IoErrorKind.wouldBlock := by
  intro events
  induction events with
  | nil => intro s e sAfter h; exact DrainOut.noConfusion h
  | cons ev rest ih =>
    intro s e sAfter h
    cases ev with
    | dgram d => exact ih (drainStep vh s d) e sAfter h
    | ioErr e2 =>
      simp only [drainLoop] at h
      by_cases hk : e2.kind = IoErrorKind.wouldBlock
      · rw [if_pos hk] at h
        exact DrainOut.noConfusion h
      · rw [if_neg hk] at h
        injection h with h1 h2
        subst h1
        exact hk

/-- A client loop iteration on an invalid datagram only refreshes the scratch
packet buffer. -/
theorem clientLoop_invalid (vh : List Nat → Bool) (filter : Option Nat)
    (d : List Nat) (rest : List RecvEvent) (pb buffer : List Nat) (received : Nat)
    (hpb : pb.length = PACKET_SIZE)
    (hinv : ¬(d.length = PACKET_SIZE ∧ vh d = true)) :
    clientLoop vh filter (RecvEvent.dgram d :: rest) pb buffer received
      = clientLoop vh filter rest (overwrite pb d) buffer received := by
  simp only [clientLoop]
  rw [if_neg]
  intro hc
  exact hinv ⟨hc.1, by
    have heq : overwrite pb d = d := overwrite_of_length pb d (hc.1.trans hpb.symm)
    rw [← heq]
    exact hc.2⟩

/-- The returned Result and the caller buffer of the client receive loop do
not depend on the stale content of the scratch packet buffer. -/
theorem client_congr (vh : List Nat → Bool) (filter : Option Nat)
    (events : List RecvEvent) :
    ∀ (pb₁ pb₂ buffer : List Nat) (received : Nat),
    pb₁.length = PACKET_SIZE → pb₂.length = PACKET_SIZE →
    (clientLoop vh filter events pb₁ buffer received).result
        = (clientLoop vh filter events pb₂ buffer received).result
    ∧ (clientLoop vh filter events pb₁ buffer received).buffer
        = (clientLoop vh filter events pb₂ buffer received).buffer := by
  induction events with
  | nil =>
    intro pb₁ pb₂ buffer received h₁ h₂
    refine ⟨?_, ?_⟩ <;> simp only [clientLoop] <;> split <;> rfl
  | cons ev rest ih =>
    intro pb₁ pb₂ buffer received h₁ h₂
    cases ev with
    | ioErr e =>
      refine ⟨?_, ?_⟩ <;> simp only [clientLoop] <;> split <;>
        first
        | rfl
        | (split <;> rfl)
    | dgram d =>
      by_cases hd : d.length = PACKET_SIZE
      · have e₁ : overwrite pb₁ d = d := overwrite_of_length pb₁ d (hd.trans h₁.symm)
        have e₂ : overwrite pb₂ d = d := overwrite_of_length pb₂ d (hd.trans h₂.symm)
        refine ⟨?_, ?_⟩ <;> simp only [clientLoop, e₁, e₂]
      · rw [clientLoop_invalid vh filter d rest pb₁ buffer received h₁ fun hc => hd hc.1,
            clientLoop_invalid vh filter d rest pb₂ buffer received h₂ fun hc => hd hc.1]
        exact ih (overwrite pb₁ d) (overwrite pb₂ d) buffer received
          (by rw [overwrite_length]; exact h₁)
          (by rw [overwrite_length]; exact h₂)

/-- Over a datagram-only trace the client loop with a connection id filter
appends exactly the matching packets to the caller buffer and counts exactly
their bytes. -/
theorem clientLoop_filter_spec (vh : List Nat → Bool) (cid : Nat) :
    ∀ (events : List RecvEvent) (pb buffer : List Nat) (received : Nat),
    allDgrams events = true → pb.length = PACKET_SIZE →
    (clientLoop vh (some cid) events pb buffer received).buffer
        = buffer ++ (matchedPackets vh cid events).flatten
    ∧ (clientLoop vh (some cid) events pb buffer received).result
        = (if 0 < received + (matchedPackets vh cid events).flatten.length
           then Result.ok (received + (matchedPackets vh cid events).flatten.length)
           else Result.err SocketError.noPendingPackets) := by
  intro events
  induction events with
  | nil =>
    intro pb buffer received _ hpb
    constructor
    · simp only [clientLoop, matchedPackets, List.flatten_nil, List.append_nil]
      split <;> rfl
    · simp only [clientLoop, matchedPackets, List.flatten_nil, List.length_nil,
        Nat.add_zero]
      split <;> simp_all [Nat.pos_iff_ne_zero]
  | cons ev rest ih =>
    intro pb buffer received hall hpb
    cases ev with
    | ioErr e => simp [allDgrams] at hall
    | dgram d =>
      have hallRest : allDgrams rest = true := by
        simp only [allDgrams, List.all_cons, Bool.and_eq_true] at hall
        exact hall.2
      by_cases hd : d.length = PACKET_SIZE
      · have epb : overwrite pb d = d := overwrite_of_length pb d (hd.trans hpb.symm)
        by_cases hv : vh d = true
        · by_cases hc : cid = get_connection_id d
          · have hmatch : matchedPackets vh cid (RecvEvent.dgram d :: rest)
                = d :: matchedPackets vh cid rest := by
              simp only [matchedPackets, if_pos (And.intro hd (And.intro hv hc))]
            simp only [clientLoop, epb, if_pos (And.intro hd hv), if_pos hc, hmatch]
            have := ih d (buffer ++ d) (received + d.length) hallRest
              (by rw [hd])
            refine ⟨?_, ?_⟩
            · rw [this.1, List.flatten_cons, List.append_assoc]
            · rw [this.2, List.flatten_cons, List.length_append, ← Nat.add_assoc]
          · have hmatch : matchedPackets vh cid (RecvEvent.dgram d :: rest)
                = matchedPackets vh cid rest := by
              simp only [matchedPackets]
              rw [if_neg]
              intro hcontra
              exact hc hcontra.2.2
            simp only [clientLoop, epb, if_pos (And.intro hd hv), if_neg hc, hmatch]
            exact ih d buffer received hallRest (by rw [hd])
        · have hmatch : matchedPackets vh cid (RecvEvent.dgram d :: rest)
              = matchedPackets vh cid rest := by
            simp only [matchedPackets]
            rw [if_neg]
            intro hcontra
            exact hv hcontra.2.1
          rw [clientLoop_invalid vh (some cid) d rest pb buffer received hpb
            fun hcontra => hv hcontra.2]
          rw [hmatch, epb]
          exact ih d buffer received hallRest (by rw [hd])
      · have hmatch : matchedPackets vh cid (RecvEvent.dgram d :: rest)
            = matchedPackets vh cid rest := by
          simp only [matchedPackets]
          rw [if_neg]
          intro hcontra
          exact hd hcontra.1
        rw [clientLoop_invalid vh (some cid) d rest pb buffer received hpb
          fun hcontra => hd hcontra.1]
        rw [hmatch]
        exact ih (overwrite pb d) buffer received hallRest
          (by rw [overwrite_length]; exact hpb)

/-- C4 (amended): Connection::connect fails with PayloadTooLarge exactly when
the payload is larger than the maximum datagram length minus the packet
header size; the trailing hash size is not subtracted by the code. -/
theorem connect_payload_bound (max_datagram_length remote : Nat)
    (payload : List Nat) (handshake_id : Nat) (send_result : Result Nat IoError)
    (now : Nat) :
    Connection.connect max_datagram_length remote payload handshake_id send_result now
        = Result.err ConnectError.payloadTooLarge
      ↔ payload.length > max_datagram_length - header_size := by
  constructor
  · intro h
    by_contra hgt
    simp only [Connection.connect] at h
    rw [if_neg hgt] at h
    cases send_result with
    | ok n => simp at h
    | err e => simp at h
  · intro h
    simp only [Connection.connect]
    rw [if_pos h]

/-- C4 (counterexample): with a 1200-byte maximum datagram length a payload
of 1181 bytes exceeds the claimed bound of max datagram length minus header
size minus hash size, yet connect does not fail with PayloadTooLarge. -/
theorem connect_payload_bound_cx :
    1181 > 1200 - header_size - hash_size
    ∧ Connection.connect 1200 0 (List.replicate 1181 0) 0 (Result.ok 1181) 0
        ≠ Result.err ConnectError.payloadTooLarge := by
  constructor
  · decide
  · intro h
    simp only [Connection.connect] at h
    rw [if_neg (by rw [List.length_replicate]; norm_num [header_size])] at h
    exact Result.noConfusion h

/-- C5: a successful Connection::connect sends exactly one datagram, the
connection request: its header carries connection id 0, the
REQUEST_CONNECTION flag and the handshake nonce as prelude, and its payload
is the supplied bytes; the returned PendingConnection keeps that nonce and
payload and records the post-send instant as both its last-sent and
last-communication time, with a cleared packet buffer. -/
theorem connect_request_shape (max_datagram_length remote : Nat)
    (payload : List Nat) (handshake_id sent_bytes now : Nat) (r : ConnectResult)
    (hlen : payload.length ≤ max_datagram_length - header_size)
    (hok : Connection.connect max_datagram_length remote payload handshake_id
        (Result.ok sent_bytes) now = Result.ok r) :
    r.sent = [(PacketHeader.request_connection handshake_id (payload.length % 65536),
               payload)]
    ∧ (PacketHeader.request_connection handshake_id
        (payload.length % 65536)).connection_id = 0
    ∧ (PacketHeader.request_connection handshake_id
        (payload.length % 65536)).flags = REQUEST_CONNECTION
    ∧ (PacketHeader.request_connection handshake_id
        (payload.length % 65536)).data_prelude = handshake_id
    ∧ r.pending.handshake_id = handshake_id
    ∧ r.pending.payload = payload
    ∧ r.pending.last_sent_packet_time = now
    ∧ r.pending.last_communication_time = now
    ∧ r.pending.packet_buffer = [] := by
  simp only [Connection.connect] at hok
  rw [if_neg (Nat.not_lt.mpr hlen)] at hok
  injection hok with hok
  subst hok
  exact ⟨rfl, rfl, rfl, rfl, rfl, rfl, rfl, rfl, rfl⟩

/-- C5 (witness): the theorem instantiated on a concrete connect call. -/
theorem connect_request_shape_case :
    ([1, 2] : List Nat).length ≤ 1200 - header_size
    ∧ Connection.connect 1200 77 [1, 2] 42 (Result.ok 21) 5
        = Result.ok ⟨[(PacketHeader.request_connection 42 2, [1, 2])],
                     ⟨77, [], 5, 5, [1, 2], 42⟩⟩
    ∧ ((⟨[(PacketHeader.request_connection 42 2, [1, 2])],
         ⟨77, [], 5, 5, [1, 2], 42⟩⟩ : ConnectResult)).sent
        = [(PacketHeader.request_connection 42 2, [1, 2])] :=
  ⟨by decide, rfl,
   (connect_request_shape 1200 77 [1, 2] 42 21 5
      ⟨[(PacketHeader.request_connection 42 2, [1, 2])], ⟨77, [], 5, 5, [1, 2], 42⟩⟩
      (by decide) rfl).1⟩

/-- C6 (counterexample): a connection opened at instant 0 and silent until
instant 100 with a 5 unit timeout still reports Open from status(); the
stored status is returned and no timer-based transition to Lost happens. -/
theorem status_ignores_timeout_cx :
    (100 : Nat) - (Connection.opened 1 0 0).last_received_packet_time > 5
    ∧ (Connection.opened 1 0 0).status ≠ ConnectionStatus.lost
    ∧ (Connection.opened 1 0 0).status = ConnectionStatus.open :=
  ⟨by decide, by decide, rfl⟩

/-- C6 (amended): Connection::status() returns the stored status field
without consulting any timer: a connection opened at some instant and left
silent for longer than any timeout still reports Open. -/
theorem status_no_timer_update (connection_id remote opened_at now timeout : Nat)
    (_hsilent : now - opened_at > timeout) :
    (Connection.opened connection_id remote opened_at).status
      = ConnectionStatus.open := rfl

/-- C6 (witness): the amended theorem at a concrete silent connection. -/
theorem status_no_timer_update_case :
    (100 : Nat) - 0 > 5
    ∧ (Connection.opened 2 3 0).status = ConnectionStatus.open :=
  ⟨by decide, status_no_timer_update 2 3 0 100 5 (by decide)⟩

/-- C7 (counterexample): allow_connection_id on an id whose bucket holds
queued packets does not leave the table unchanged: the queued packets are
discarded. -/
theorem allow_connection_id_drops_bucket :
    ServerUdpEndpoint.allow_connection_id
        (fun k => if k = 5 then some [1, 2, 3] else none) 5 5
      ≠ (fun k => if k = 5 then some [1, 2, 3] else none : ConnMap) 5 := by
  decide

/-- C7 (amended): allow_connection_id always resets the bucket of the given
id to the empty queue (discarding whatever was queued there) and leaves every
other bucket unchanged; it is idempotent as an operation, in that calling it
twice in a row equals calling it once. -/
theorem allow_connection_id_resets (conns : ConnMap) (connection_id k : Nat)
    (hk : k ≠ connection_id) :
    ServerUdpEndpoint.allow_connection_id
        (ServerUdpEndpoint.allow_connection_id conns connection_id) connection_id
      = ServerUdpEndpoint.allow_connection_id conns connection_id
    ∧ ServerUdpEndpoint.allow_connection_id conns connection_id connection_id
        = some []
    ∧ ServerUdpEndpoint.allow_connection_id conns connection_id k = conns k := by
  refine ⟨funext fun q => ?_, ?_, ?_⟩
  · simp only [ServerUdpEndpoint.allow_connection_id, ConnMap.update]
    by_cases hq : q = connection_id <;> simp [hq]
  · simp [ServerUdpEndpoint.allow_connection_id, ConnMap.update]
  · simp [ServerUdpEndpoint.allow_connection_id, ConnMap.update, hk]

/-- C7 (witness): the amended theorem at a concrete table with a queued
bucket. -/
theorem allow_connection_id_resets_case :
    (4 : Nat) ≠ 5
    ∧ ServerUdpEndpoint.allow_connection_id
        (ServerUdpEndpoint.allow_connection_id
          (fun k => if k = 5 then some [9] else none) 5) 5
      = ServerUdpEndpoint.allow_connection_id
          (fun k => if k = 5 then some [9] else none) 5
    ∧ ServerUdpEndpoint.allow_connection_id
        (fun k => if k = 5 then some [9] else none) 5 5 = some []
    ∧ ServerUdpEndpoint.allow_connection_id
        (fun k => if k = 5 then some [9] else none) 5 4
      = (fun k => if k = 5 then some [9] else none : ConnMap) 4 :=
  ⟨by decide,
   (allow_connection_id_resets (fun k => if k = 5 then some [9] else none) 5 4
      (by decide)).1,
   (allow_connection_id_resets (fun k => if k = 5 then some [9] else none) 5 4
      (by decide)).2.1,
   (allow_connection_id_resets (fun k => if k = 5 then some [9] else none) 5 4
      (by decide)).2.2⟩

/-- C8: an IoError surfaces as NoPendingPackets exactly when its kind is
WouldBlock and otherwise as an Io error carrying the error unchanged (the
From conversion of transmit.rs); moreover the receive drain of the server
endpoint only ever reports an Io error whose kind is not WouldBlock, since a
WouldBlock report breaks the drain instead. -/
theorem io_error_surfacing (e eDrain : IoError) (vh : List Nat → Bool)
    (events : List RecvEvent) (s sAfter : DrainState) :
    (TransmitError.fromIoError e = TransmitError.noPendingPackets
       ↔ e.kind = IoErrorKind.wouldBlock)
    ∧ (e.kind ≠ IoErrorKind.wouldBlock
       → TransmitError.fromIoError e = TransmitError.ioError e)
    ∧ (drainLoop vh events s = DrainOut.ioError eDrain sAfter
       → eDrain.kind ≠ IoErrorKind.wouldBlock) := by
  refine ⟨?_, ?_, ?_⟩
  · unfold TransmitError.fromIoError
    by_cases h : e.kind = IoErrorKind.wouldBlock
    · simp [h]
    · simp [h]
  · intro h
    unfold TransmitError.fromIoError
    rw [if_neg h]
  · exact drain_io_kind vh events s eDrain sAfter

/-- C8 (witness): a TimedOut error is surfaced as Io carrying the same
error, and the drain at a concrete trace reports exactly that non-WouldBlock
kind. -/
theorem io_error_surfacing_case :
    TransmitError.fromIoError ⟨IoErrorKind.timedOut, 3⟩
        = TransmitError.ioError ⟨IoErrorKind.timedOut, 3⟩
    ∧ (⟨IoErrorKind.timedOut, 3⟩ : IoError).kind ≠ IoErrorKind.wouldBlock :=
  ⟨(io_error_surfacing ⟨IoErrorKind.timedOut, 3⟩ ⟨IoErrorKind.timedOut, 3⟩
      (fun _ => false) [RecvEvent.ioErr ⟨IoErrorKind.timedOut, 3⟩]
      ⟨[], fun _ => none⟩ ⟨[], fun _ => none⟩).2.1 (by decide),
   (io_error_surfacing ⟨IoErrorKind.timedOut, 3⟩ ⟨IoErrorKind.timedOut, 3⟩
      (fun _ => false) [RecvEvent.ioErr ⟨IoErrorKind.timedOut, 3⟩]
      ⟨[], fun _ => none⟩ ⟨[], fun _ => none⟩).2.2 rfl⟩

set_option maxRecDepth 100000 in
/-- C2 (code evaluation at the failing input): a verified full-size packet
whose connection id has no admitted bucket makes ServerSocket::recv_all panic
(the unwrap on the missing bucket, modelled as none), while the sibling
ServerUdpEndpoint::recv_all drops the same packet and carries on, reporting
NoPendingPackets for an unrelated admitted id. -/
theorem server_socket_unadmitted_packet_panics :
    ServerSocket.recv_all (fun _ => true)
      [RecvEvent.dgram (List.replicate PACKET_SIZE 7)]
      (List.replicate PACKET_SIZE 0) [] (fun _ => none) 7 = none
    ∧ Option.map RecvOutcome.result
        (ServerUdpEndpoint.recv_all (fun _ => true)
          [RecvEvent.dgram (List.replicate PACKET_SIZE 7)]
          (fun k => if k = 1 then some [] else none) [] 1)
      = some (Result.err EndpointError.noPendingPackets) :=
  ⟨rfl, rfl⟩

/-- C1: an inbound datagram whose size differs from PACKET_SIZE or whose
keyed hash does not verify is silently discarded: removing it from the event
trace changes neither the outcome of ServerUdpEndpoint::recv_all (result,
caller buffer and admission table) nor the result and caller buffer of
ClientSocket::recv_all; in particular nothing is retained for it and no error
is caused by it. -/
theorem recv_all_discard_invalid (vh : List Nat → Bool) (d : List Nat)
    (events : List RecvEvent) (conns : ConnMap) (buffer : List Nat)
    (connection_id : Nat) (pb : List Nat) (filter : Option Nat)
    (hinv : ¬(d.length = PACKET_SIZE ∧ vh d = true))
    (hpb : pb.length = PACKET_SIZE)
    (hclean : cleanTrace events = true) :
    ServerUdpEndpoint.recv_all vh (RecvEvent.dgram d :: events) conns buffer
        connection_id
      = ServerUdpEndpoint.recv_all vh events conns buffer connection_id
    ∧ (ClientSocket.recv_all vh (RecvEvent.dgram d :: events) pb buffer filter).result
        = (ClientSocket.recv_all vh events pb buffer filter).result
    ∧ (ClientSocket.recv_all vh (RecvEvent.dgram d :: events) pb buffer filter).buffer
        = (ClientSocket.recv_all vh events pb buffer filter).buffer := by
  have hrep : (List.replicate PACKET_SIZE (0 : Nat)).length = PACKET_SIZE := by simp
  refine ⟨?_, ?_⟩
  · have hstep : drainLoop vh (RecvEvent.dgram d :: events)
        ⟨List.replicate PACKET_SIZE 0, conns⟩
        = drainLoop vh events ⟨overwrite (List.replicate PACKET_SIZE 0) d, conns⟩ := by
      simp only [drainLoop]
      rw [drainStep_invalid vh ⟨List.replicate PACKET_SIZE 0, conns⟩ d hrep hinv]
    have hcongr := drain_congr vh events (overwrite (List.replicate PACKET_SIZE 0) d)
      (List.replicate PACKET_SIZE 0) conns
      (by rw [overwrite_length]; exact hrep) hrep
    cases h₁ : drainLoop vh events ⟨overwrite (List.replicate PACKET_SIZE 0) d, conns⟩ with
    | ioError e s =>
      exfalso
      have hce := drain_clean vh events
        ⟨overwrite (List.replicate PACKET_SIZE 0) d, conns⟩ hclean
      rw [h₁] at hce
      exact Option.noConfusion hce
    | drained s₁ =>
      cases h₂ : drainLoop vh events ⟨List.replicate PACKET_SIZE 0, conns⟩ with
      | ioError e s =>
        exfalso
        have hce := drain_clean vh events ⟨List.replicate PACKET_SIZE 0, conns⟩ hclean
        rw [h₂] at hce
        exact Option.noConfusion hce
      | drained s₂ =>
        have hcc : s₁.connections = s₂.connections := by
          have hc := hcongr.1
          rw [h₁, h₂] at hc
          exact hc
        simp only [ServerUdpEndpoint.recv_all, hstep, h₁, h₂, hcc]
  · have hstep : ClientSocket.recv_all vh (RecvEvent.dgram d :: events) pb buffer filter
        = clientLoop vh filter events (overwrite pb d) buffer 0 := by
      unfold ClientSocket.recv_all
      exact clientLoop_invalid vh filter d events pb buffer 0 hpb hinv
    rw [hstep]
    unfold ClientSocket.recv_all
    exact client_congr vh filter events (overwrite pb d) pb buffer 0
      (by rw [overwrite_length]; exact hpb) hpb

/-- C1 (witness): a three-byte datagram (wrong size) is discarded by both
receive paths at a concrete state. -/
theorem recv_all_discard_invalid_case :
    ServerUdpEndpoint.recv_all (fun _ => false) [RecvEvent.dgram [1, 2, 3]]
        (fun k => if k = 1 then some [] else none) [] 1
      = ServerUdpEndpoint.recv_all (fun _ => false) []
          (fun k => if k = 1 then some [] else none) [] 1
    ∧ (ClientSocket.recv_all (fun _ => false) [RecvEvent.dgram [1, 2, 3]]
        (List.replicate PACKET_SIZE 0) [] (some 1)).result
      = (ClientSocket.recv_all (fun _ => false) []
          (List.replicate PACKET_SIZE 0) [] (some 1)).result
    ∧ (ClientSocket.recv_all (fun _ => false) [RecvEvent.dgram [1, 2, 3]]
        (List.replicate PACKET_SIZE 0) [] (some 1)).buffer
      = (ClientSocket.recv_all (fun _ => false) []
          (List.replicate PACKET_SIZE 0) [] (some 1)).buffer :=
  recv_all_discard_invalid (fun _ => false) [1, 2, 3] []
    (fun k => if k = 1 then some [] else none) [] 1
    (List.replicate PACKET_SIZE 0) (some 1)
    (by decide) (by simp) (by decide)

/-- C3: with the bucket of the requested id admitted, recv_all first runs the
drain to its would-block break, then moves the whole bucket content to the
caller buffer, empties the bucket and returns the byte count; it returns
NoPendingPackets exactly when that bucket is empty after the drain, so an
immediately repeated call with no new inbound traffic returns
NoPendingPackets. -/
theorem recv_all_take (vh : List Nat → Bool) (events : List RecvEvent)
    (conns : ConnMap) (buffer : List Nat) (connection_id : Nat)
    (s : DrainState) (b : List Nat)
    (hdrain : drainLoop vh events ⟨List.replicate PACKET_SIZE 0, conns⟩
        = DrainOut.drained s)
    (hbucket : s.connections connection_id = some b) :
    (b = [] →
      ServerUdpEndpoint.recv_all vh events conns buffer connection_id
        = some ⟨Result.err EndpointError.noPendingPackets, buffer, s.connections⟩)
    ∧ (b ≠ [] →
      ServerUdpEndpoint.recv_all vh events conns buffer connection_id
          = some ⟨Result.ok b.length, buffer ++ b,
                  s.connections.update connection_id []⟩
        ∧ ServerUdpEndpoint.recv_all vh [] (s.connections.update connection_id [])
            (buffer ++ b) connection_id
          = some ⟨Result.err EndpointError.noPendingPackets, buffer ++ b,
                  s.connections.update connection_id []⟩) := by
  constructor
  · intro hb
    subst hb
    simp [ServerUdpEndpoint.recv_all, hdrain, hbucket]
  · intro hb
    have hne : b.isEmpty = false := by
      cases b with
      | nil => exact absurd rfl hb
      | cons x xs => rfl
    constructor
    · simp [ServerUdpEndpoint.recv_all, hdrain, hbucket, hne]
    · have hlook : (s.connections.update connection_id []) connection_id = some [] := by
        simp [ConnMap.update]
      simp [ServerUdpEndpoint.recv_all, drainLoop, hlook]

/-- C3 (witness): taking a one-byte bucket at a concrete state, then the
immediately repeated call returning NoPendingPackets. -/
theorem recv_all_take_case :
    ServerUdpEndpoint.recv_all (fun _ => true) []
        (fun k => if k = 3 then some [9] else none) [] 3
      = some ⟨Result.ok 1, [9],
              ConnMap.update (fun k => if k = 3 then some [9] else none) 3 []⟩
    ∧ ServerUdpEndpoint.recv_all (fun _ => true) []
        (ConnMap.update (fun k => if k = 3 then some [9] else none) 3 []) [9] 3
      = some ⟨Result.err EndpointError.noPendingPackets, [9],
              ConnMap.update (fun k => if k = 3 then some [9] else none) 3 []⟩ :=
  (recv_all_take (fun _ => true) [] (fun k => if k = 3 then some [9] else none)
      [] 3 ⟨List.replicate PACKET_SIZE 0, fun k => if k = 3 then some [9] else none⟩
      [9] rfl rfl).2 (by decide)

/-- C9: with a connection id filter, ClientSocket::recv_all appends to the
caller buffer exactly the verified full-size packets whose header carries the
filtered id, in order; every other consumed packet is discarded, and the
returned count is exactly the byte total of the matching packets (with
NoPendingPackets when none matched). -/
theorem client_recv_all_filters (vh : List Nat → Bool) (events : List RecvEvent)
    (pb buffer : List Nat) (cid : Nat)
    (hall : allDgrams events = true) (hpb : pb.length = PACKET_SIZE) :
    (ClientSocket.recv_all vh events pb buffer (some cid)).buffer
        = buffer ++ (matchedPackets vh cid events).flatten
    ∧ (ClientSocket.recv_all vh events pb buffer (some cid)).result
        = (if 0 < (matchedPackets vh cid events).flatten.length
           then Result.ok ((matchedPackets vh cid events).flatten.length)
           else Result.err SocketError.noPendingPackets) := by
  have h := clientLoop_filter_spec vh cid events pb buffer 0 hall hpb
  rw [Nat.zero_add] at h
  exact h

/-- C9 (witness): one matching and one non-matching verified packet; the
matching one alone lands in the buffer and is counted. -/
theorem client_recv_all_filters_case :
    (ClientSocket.recv_all (fun _ => true)
        [RecvEvent.dgram (1 :: List.replicate 1199 0),
         RecvEvent.dgram (2 :: List.replicate 1199 0)]
        (List.replicate PACKET_SIZE 0) [] (some 1)).buffer
      = [] ++ (matchedPackets (fun _ => true) 1
          [RecvEvent.dgram (1 :: List.replicate 1199 0),
           RecvEvent.dgram (2 :: List.replicate 1199 0)]).flatten
    ∧ (ClientSocket.recv_all (fun _ => true)
        [RecvEvent.dgram (1 :: List.replicate 1199 0),
         RecvEvent.dgram (2 :: List.replicate 1199 0)]
        (List.replicate PACKET_SIZE 0) [] (some 1)).result
      = (if 0 < (matchedPackets (fun _ => true) 1
            [RecvEvent.dgram (1 :: List.replicate 1199 0),
             RecvEvent.dgram (2 :: List.replicate 1199 0)]).flatten.length
         then Result.ok ((matchedPackets (fun _ => true) 1
            [RecvEvent.dgram (1 :: List.replicate 1199 0),
             RecvEvent.dgram (2 :: List.replicate 1199 0)]).flatten.length)
         else Result.err SocketError.noPendingPackets) :=
  client_recv_all_filters (fun _ => true)
    [RecvEvent.dgram (1 :: List.replicate 1199 0),
     RecvEvent.dgram (2 :: List.replicate 1199 0)]
    (List.replicate PACKET_SIZE 0) [] 1 (by decide) (by simp)

/-- C10 (amended): ServerUdpEndpoint::recv_all restores the caller buffer
exactly when it returns NoPendingPackets, but on a hard IO error it returns
before the truncation and leaves exactly one PACKET_SIZE scratch block
appended to the caller buffer. -/
theorem recv_all_error_buffer (vh : List Nat → Bool) (events : List RecvEvent)
    (conns : ConnMap) (buffer : List Nat) (connection_id : Nat)
    (out : RecvOutcome)
    (h : ServerUdpEndpoint.recv_all vh events conns buffer connection_id
        = some out) :
    BufferRestored buffer out := by
  cases hdl : drainLoop vh events ⟨List.replicate PACKET_SIZE 0, conns⟩ with
  | ioError e s =>
    simp only [ServerUdpEndpoint.recv_all, hdl] at h
    injection h with h
    subst h
    refine ⟨s.ws, ?_, rfl⟩
    have hws := drain_ws_length vh events ⟨List.replicate PACKET_SIZE 0, conns⟩
      (by simp)
    rw [hdl] at hws
    exact hws
  | drained s =>
    simp only [ServerUdpEndpoint.recv_all, hdl] at h
    cases hlook : s.connections connection_id with
    | none =>
      simp only [hlook] at h
      exact Option.noConfusion h
    | some b =>
      simp only [hlook] at h
      by_cases hemp : b.isEmpty = true
      · rw [if_pos hemp] at h
        injection h with h
        subst h
        exact rfl
      · rw [if_neg hemp] at h
        injection h with h
        subst h
        exact trivial

/-- C10 (witness): the amended theorem at a concrete IO error trace, showing
the scratch block left in the buffer. -/
theorem recv_all_error_buffer_case :
    ∃ ws, ws.length = PACKET_SIZE
      ∧ (⟨Result.err (EndpointError.ioError ⟨IoErrorKind.timedOut, 7⟩),
          List.replicate PACKET_SIZE 0, fun _ => none⟩ : RecvOutcome).buffer
        = [] ++ ws :=
  recv_all_error_buffer (fun _ => true)
    [RecvEvent.ioErr ⟨IoErrorKind.timedOut, 7⟩] (fun _ => none) [] 0
    ⟨Result.err (EndpointError.ioError ⟨IoErrorKind.timedOut, 7⟩),
     List.replicate PACKET_SIZE 0, fun _ => none⟩ rfl

/-- C10 (counterexample): a hard IO error during the drain returns the Io
error with the caller buffer grown by the zeroed scratch block rather than
restored to its previous (empty) content. -/
theorem recv_all_io_leaves_scratch_cx :
    Option.map RecvOutcome.result
        (ServerUdpEndpoint.recv_all (fun _ => true)
          [RecvEvent.ioErr ⟨IoErrorKind.timedOut, 7⟩] (fun _ => none) [] 0)
      = some (Result.err (EndpointError.ioError ⟨IoErrorKind.timedOut, 7⟩))
    ∧ Option.map RecvOutcome.buffer
        (ServerUdpEndpoint.recv_all (fun _ => true)
          [RecvEvent.ioErr ⟨IoErrorKind.timedOut, 7⟩] (fun _ => none) [] 0)
      = some (List.replicate PACKET_SIZE 0)
    ∧ List.replicate PACKET_SIZE 0 ≠ ([] : List Nat) :=
  ⟨rfl, rfl, by decide⟩
